import Mathlib

/-
Shallow embedding of the HRMS backend (employee + attendance services over a
relational SQLite store and a MongoDB document store), translated from the
Python sources:
  backend/app/schemas/attendance.py, backend/app/schemas/employee.py
  backend/app/services/employee_service.py, backend/app/services/attendance_service.py
  backend/app/db/database.py, backend/app/db/mongodb.py, backend/app/db/init_db.py
Timestamps are modelled as natural numbers (the server clock is passed in
explicitly where the code calls datetime.utcnow() or relies on the SQLite
column default CURRENT_TIMESTAMP).
-/

namespace HRMS

/-! ### Validation layer (pydantic schemas, backend/app/schemas) -/

/-- Python `str.capitalize()`: first character uppercased, the rest lowercased.
Inputs here are ASCII, for which `Char.toUpper`/`Char.toLower` agree with Python. -/
def str_capitalize (s : String) : String :=
  match s.data with
  | [] => ""
  | c :: cs => ⟨c.toUpper :: cs.map Char.toLower⟩

/-- Model of `AttendanceBase.validate_status` (schemas/attendance.py): capitalizes the
input, then requires membership in `\x7b"Present", "Absent"\x7d`; returns the
normalized value on success, `none` models the raised `ValueError`. -/
def validate_status (v : String) : Option String :=
  let v := str_capitalize v
  if v = "Present" ∨ v = "Absent" then some v else none

def char_is_digit (c : Char) : Bool := '0' ≤ c && c ≤ '9'

def digit_val (c : Char) : Nat := c.toNat - '0'.toNat

def is_leap_year (y : Nat) : Bool :=
  (y % 4 == 0 && y % 100 != 0) || y % 400 == 0

def days_in_month (y m : Nat) : Nat :=
  if m == 2 then (if is_leap_year y then 29 else 28)
  else if m == 4 || m == 6 || m == 9 || m == 11 then 30
  else 31

/-- The date check of `AttendanceCreate` (schemas/attendance.py): the field
pattern `^\d\x7b4\x7d-\d\x7b2\x7d-\d\x7b2\x7d$` combined with the
`validate_date_format` validator's `datetime.strptime(v, "%Y-%m-%d")`, which
additionally requires a real calendar date with year ≥ 1. -/
def valid_date_string (s : String) : Bool :=
  match s.data with
  | [y1, y2, y3, y4, h1, m1, m2, h2, d1, d2] =>
    char_is_digit y1 && char_is_digit y2 && char_is_digit y3 && char_is_digit y4 &&
    h1 == '-' && h2 == '-' &&
    char_is_digit m1 && char_is_digit m2 && char_is_digit d1 && char_is_digit d2 &&
    (let y := ((digit_val y1 * 10 + digit_val y2) * 10 + digit_val y3) * 10 + digit_val y4
     let m := digit_val m1 * 10 + digit_val m2
     let d := digit_val d1 * 10 + digit_val d2
     1 ≤ y && 1 ≤ m && m ≤ 12 && 1 ≤ d && d ≤ days_in_month y m)
  | _ => false

/-- Model of `AttendanceCreate` validation (schemas/attendance.py): `employee_id` length
between 4 and 20, `date` as above, and `status` constrained by the field
pattern `^(Present|Absent)$` — an exact, case-sensitive match.
`AttendanceCreate` extends `BaseModel` directly, so `AttendanceBase`'s
capitalizing `validate_status` does not run here. -/
def attendanceCreate_valid (employee_id date status : String) : Bool :=
  4 ≤ employee_id.length && employee_id.length ≤ 20 &&
  valid_date_string date &&
  (status == "Present" || status == "Absent")

/-! ### Data model -/

/-- A row of the `employees` table / a document of the `employees` collection
(the fields the service reads and writes). -/
structure EmployeeRow where
  id : String
  name : String
  email : String
  department : String
  created_at : Nat
  deriving DecidableEq, Repr

/-- A row of the SQLite `attendance` table: `id INTEGER PRIMARY KEY AUTOINCREMENT`. -/
structure AttendanceRow where
  id : Nat
  employee_id : String
  date : String
  status : String
  deriving DecidableEq, Repr

/-- An `attendance` document in MongoDB: `id` is the generated object id,
exposed as a string. -/
structure MongoAttendanceRow where
  id : String
  employee_id : String
  date : String
  status : String
  deriving DecidableEq, Repr

/-- The typed failures the services raise (core/exceptions.py):
`raise_not_found resource identifier`, `raise_duplicate resource field`.
`Internal` stands for a store-level failure surfacing as an opaque internal
error (an unreachable branch in the modelled paths). -/
inductive ServiceError where
  | NotFound (resource : String) (identifier : String)
  | Duplicate (resource : String) (field : String)
  | Internal
  deriving DecidableEq, Repr

/-- The input to `EmployeeService.create_employee` (schema `EmployeeCreate`,
already validated and with `id` normalized to uppercase by the schema). -/
structure EmployeeCreateData where
  id : String
  name : String
  email : String
  department : String
  deriving DecidableEq, Repr

/-- The input to `EmployeeService.update_employee` (schema `EmployeeUpdate`):
`none` models a field absent from `model_dump(exclude_unset=True)`. -/
structure EmployeeUpdateData where
  name : Option String
  email : Option String
  department : Option String
  deriving DecidableEq, Repr

/-- The input to `AttendanceService.create_attendance` (schema `AttendanceCreate`). -/
structure AttendanceCreateData where
  employee_id : String
  date : String
  status : String
  deriving DecidableEq, Repr

/-- Model of `EmployeeAttendanceSummary` (schemas/employee.py). -/
structure EmployeeAttendanceSummary where
  employee_id : String
  name : String
  total_present : Nat
  total_absent : Nat
  deriving DecidableEq, Repr

/-! ### Shared row lookups

`SELECT * FROM employees WHERE id = ?` fetched with `fetchone`, and MongoDB
`find_one(\x7b"id": eid\x7d)`, both return the first matching stored row. -/

def find_by_id (l : List EmployeeRow) (eid : String) : Option EmployeeRow :=
  l.find? (fun r => r.id == eid)

def find_by_email (l : List EmployeeRow) (em : String) : Option EmployeeRow :=
  l.find? (fun r => r.email == em)

/-! ### SQLite backend (relational path of each service method)

`Database.get_connection` (db/database.py) opens each connection with plain
`sqlite3.connect(db_path)` and never issues `PRAGMA foreign_keys = ON`, so
SQLite's foreign-key clauses — including the `ON DELETE CASCADE` declared on
`attendance.employee_id` in db/init_db.py — are not enforced at runtime.
The model below therefore reflects the actual runtime behaviour: deleting an
employee touches only the `employees` table. -/

/-- The SQLite store: the `employees` and `attendance` tables (in rowid /
insertion order) and the next AUTOINCREMENT id for `attendance`. -/
structure SqliteDB where
  employees : List EmployeeRow
  attendance : List AttendanceRow
  next_attendance_id : Nat
  deriving DecidableEq, Repr

namespace SqliteDB

/-- Model of `EmployeeService._get_by_id`, SQLite branch. -/
def get_by_id (db : SqliteDB) (eid : String) : Option EmployeeRow :=
  find_by_id db.employees eid

/-- Model of `EmployeeService._get_by_email`, SQLite branch. -/
def get_by_email (db : SqliteDB) (em : String) : Option EmployeeRow :=
  find_by_email db.employees em

/-- Model of `EmployeeService.employee_exists`. -/
def employee_exists (db : SqliteDB) (eid : String) : Bool :=
  (db.get_by_id eid).isSome

/-- Model of `EmployeeService.create_employee`, SQLite branch: duplicate-id check,
duplicate-email check, `INSERT INTO employees`, then re-fetch of the created
row. `now` is the `CURRENT_TIMESTAMP` column default assigned by the store. -/
def create_employee (db : SqliteDB) (e : EmployeeCreateData) (now : Nat) :
    Except ServiceError (SqliteDB × EmployeeRow) :=
  if (db.get_by_id e.id).isSome then
    .error (.Duplicate "Employee" "ID")
  else if (db.get_by_email e.email).isSome then
    .error (.Duplicate "Employee" "email")
  else
    match ({ db with employees := db.employees ++ [⟨e.id, e.name, e.email, e.department, now⟩] }
            : SqliteDB).get_by_id e.id with
    | some row =>
      .ok ({ db with employees := db.employees ++ [⟨e.id, e.name, e.email, e.department, now⟩] },
           row)
    | none => .error .Internal

/-- The `ORDER BY created_at DESC` relation. -/
def created_desc (a b : EmployeeRow) : Prop :=
  b.created_at ≤ a.created_at

instance : DecidableRel created_desc :=
  fun a b => inferInstanceAs (Decidable (b.created_at ≤ a.created_at))

instance : IsTotal EmployeeRow created_desc :=
  ⟨fun a b => (Nat.le_total a.created_at b.created_at).symm⟩

instance : IsTrans EmployeeRow created_desc :=
  ⟨fun _ _ _ hab hbc => Nat.le_trans hbc hab⟩

/-- Model of `EmployeeService.get_employees`, SQLite branch:
`SELECT * FROM employees ORDER BY created_at DESC`. A stable sort is one
admissible realization of the (tie-order-unspecified) SQL ordering. -/
def get_employees (db : SqliteDB) : List EmployeeRow :=
  List.insertionSort created_desc db.employees

/-- The per-row effect of `UPDATE employees SET <supplied fields> WHERE id = ?`. -/
def apply_employee_update (u : EmployeeUpdateData) (r : EmployeeRow) : EmployeeRow :=
  { r with
    name := u.name.getD r.name
    email := u.email.getD r.email
    department := u.department.getD r.department }

/-- Whether `model_dump(exclude_unset=True)` is non-empty. -/
def update_has_fields (u : EmployeeUpdateData) : Bool :=
  u.name.isSome || u.email.isSome || u.department.isSome

/-- The email uniqueness test of `EmployeeService.update_employee`: when an
email was supplied, an existing row owning it conflicts exactly when its id
differs from the updated id (`existing.get("id") != employee_id`). -/
def email_conflict (db : SqliteDB) (eid : String) (u : EmployeeUpdateData) : Bool :=
  match u.email with
  | some em =>
    match db.get_by_email em with
    | some existing => existing.id != eid
    | none => false
  | none => false

/-- The write phase of `EmployeeService.update_employee`, SQLite branch: the
`UPDATE employees SET <supplied fields> WHERE id = ?` statement, skipped when
`model_dump(exclude_unset=True)` is empty. -/
def employee_written (db : SqliteDB) (eid : String) (u : EmployeeUpdateData) : SqliteDB :=
  if update_has_fields u then
    { db with employees :=
        db.employees.map (fun r => if r.id == eid then apply_employee_update u r else r) }
  else db

/-- Model of `EmployeeService.update_employee`, SQLite branch: existence check, email
uniqueness check, conditional `UPDATE`, then re-fetch of the row. -/
def update_employee (db : SqliteDB) (eid : String) (u : EmployeeUpdateData) :
    Except ServiceError (SqliteDB × EmployeeRow) :=
  if (db.get_by_id eid).isNone then
    .error (.NotFound "Employee" eid)
  else if email_conflict db eid u then
    .error (.Duplicate "Employee" "email")
  else
    match (employee_written db eid u).get_by_id eid with
    | some row => .ok (employee_written db eid u, row)
    | none => .error .Internal

/-- Model of `EmployeeService.delete_employee`, SQLite branch:
`DELETE FROM employees WHERE id = ?`, NotFound when `rowcount = 0`.
No `PRAGMA foreign_keys` is ever issued on the connection, so the
`ON DELETE CASCADE` clause of the schema is inert and the `attendance`
table is left untouched. -/
def delete_employee (db : SqliteDB) (eid : String) : Except ServiceError SqliteDB :=
  if (db.employees.filter (fun r => !(r.id == eid))).length == db.employees.length then
    .error (.NotFound "Employee" eid)
  else
    .ok { db with employees := db.employees.filter (fun r => !(r.id == eid)) }

/-- The duplicate probe of `AttendanceService.create_attendance`, SQLite
branch: `SELECT id FROM attendance WHERE employee_id = ? AND date = ?`. -/
def find_attendance_pair (db : SqliteDB) (eid date : String) : Option AttendanceRow :=
  db.attendance.find? (fun r => r.employee_id == eid && r.date == date)

/-- Model of `AttendanceService.create_attendance`, SQLite branch: employee existence
check first, then the (employee_id, date) duplicate check, then
`INSERT INTO attendance` with the AUTOINCREMENT id, then re-fetch. -/
def create_attendance (db : SqliteDB) (a : AttendanceCreateData) :
    Except ServiceError (SqliteDB × AttendanceRow) :=
  if !(db.employee_exists a.employee_id) then
    .error (.NotFound "Employee" a.employee_id)
  else if (db.find_attendance_pair a.employee_id a.date).isSome then
    .error (.Duplicate "Attendance record" "date")
  else
    .ok ({ db with
            attendance := db.attendance ++ [⟨db.next_attendance_id, a.employee_id, a.date, a.status⟩]
            next_attendance_id := db.next_attendance_id + 1 },
         ⟨db.next_attendance_id, a.employee_id, a.date, a.status⟩)

/-- Model of `AttendanceService.update_attendance`, SQLite branch:
`UPDATE attendance SET status = ? WHERE id = ?`, NotFound when `rowcount = 0`. -/
def update_attendance (db : SqliteDB) (aid : Nat) (st : String) :
    Except ServiceError SqliteDB :=
  if (db.attendance.find? (fun r => r.id == aid)).isNone then
    .error (.NotFound "Attendance record" (toString aid))
  else
    .ok { db with attendance :=
            db.attendance.map (fun r => if r.id == aid then { r with status := st } else r) }

/-- Model of `AttendanceService.delete_attendance`, SQLite branch:
`DELETE FROM attendance WHERE id = ?`, NotFound when `rowcount = 0`. -/
def delete_attendance (db : SqliteDB) (aid : Nat) : Except ServiceError SqliteDB :=
  if (db.attendance.filter (fun r => !(r.id == aid))).length == db.attendance.length then
    .error (.NotFound "Attendance record" (toString aid))
  else
    .ok { db with attendance := db.attendance.filter (fun r => !(r.id == aid)) }

/-- Model of `AttendanceService.get_employee_attendance_summary`, SQLite branch: a
NotFound existence check through `get_employee`, then the two
`SELECT COUNT(*) ... WHERE employee_id = ? AND status = '...'` queries. -/
def get_employee_attendance_summary (db : SqliteDB) (eid : String) :
    Except ServiceError EmployeeAttendanceSummary :=
  match db.get_by_id eid with
  | none => .error (.NotFound "Employee" eid)
  | some emp =>
    .ok ⟨eid, emp.name,
      (db.attendance.filter (fun r => r.employee_id == eid && r.status == "Present")).length,
      (db.attendance.filter (fun r => r.employee_id == eid && r.status == "Absent")).length⟩

end SqliteDB

/-! ### MongoDB backend (document-store path of each service method)

`MongoDB.find_one` returns the first document of the collection matching the
filter (natural = insertion order); `find_many(query, skip, limit)` returns
the matching documents in natural order after `skip`, capped at `limit`, with
no sort applied; `update_one`/`delete_one` affect the first matching document. -/

/-- Replace the first element satisfying `p` by its image under `f`
(MongoDB `update_one` with a `$set`). -/
def update_first (p : α → Bool) (f : α → α) : List α → List α
  | [] => []
  | x :: xs => if p x then f x :: xs else x :: update_first p f xs

/-- The MongoDB store: the `employees` and `attendance` collections in natural
(insertion) order, and a counter generating fresh object ids. -/
structure MongoState where
  employees : List EmployeeRow
  attendance : List MongoAttendanceRow
  next_oid : Nat
  deriving DecidableEq, Repr

namespace MongoState

/-- Model of `EmployeeService._get_by_id`, MongoDB branch: `find_one(\x7b"id": eid\x7d)`. -/
def get_by_id (db : MongoState) (eid : String) : Option EmployeeRow :=
  find_by_id db.employees eid

/-- Model of `EmployeeService._get_by_email`, MongoDB branch. -/
def get_by_email (db : MongoState) (em : String) : Option EmployeeRow :=
  find_by_email db.employees em

/-- Model of `EmployeeService.employee_exists` over the MongoDB store. -/
def employee_exists (db : MongoState) (eid : String) : Bool :=
  (db.get_by_id eid).isSome

/-- Model of `EmployeeService.create_employee`, MongoDB branch: duplicate-id and
duplicate-email checks, then `insert_one` of the document with
`created_at = datetime.utcnow()` (the `now` argument); the response is built
from the inserted document itself. -/
def create_employee (db : MongoState) (e : EmployeeCreateData) (now : Nat) :
    Except ServiceError (MongoState × EmployeeRow) :=
  if (db.get_by_id e.id).isSome then
    .error (.Duplicate "Employee" "ID")
  else if (db.get_by_email e.email).isSome then
    .error (.Duplicate "Employee" "email")
  else
    .ok ({ db with employees := db.employees ++ [⟨e.id, e.name, e.email, e.department, now⟩] },
         ⟨e.id, e.name, e.email, e.department, now⟩)

/-- Model of `EmployeeService.get_employees`, MongoDB branch:
`find_many("employees", limit=1000)` — natural order, no sort, `skip=0`,
capped at 1000 documents. -/
def get_employees (db : MongoState) : List EmployeeRow :=
  (db.employees.drop 0).take 1000

/-- The email uniqueness test of `EmployeeService.update_employee` over the
MongoDB store (same logic as the relational branch). -/
def email_conflict (db : MongoState) (eid : String) (u : EmployeeUpdateData) : Bool :=
  match u.email with
  | some em =>
    match db.get_by_email em with
    | some existing => existing.id != eid
    | none => false
  | none => false

/-- The write phase of `EmployeeService.update_employee`, MongoDB branch:
`update_one` with `$set` on the first matching document, skipped when no
field was supplied. -/
def employee_written (db : MongoState) (eid : String) (u : EmployeeUpdateData) : MongoState :=
  if SqliteDB.update_has_fields u then
    { db with employees :=
        update_first (fun r => r.id == eid) (SqliteDB.apply_employee_update u) db.employees }
  else db

/-- Model of `EmployeeService.update_employee`, MongoDB branch: existence check, email
uniqueness check, conditional `update_one`, then re-fetch of the document. -/
def update_employee (db : MongoState) (eid : String) (u : EmployeeUpdateData) :
    Except ServiceError (MongoState × EmployeeRow) :=
  if (db.get_by_id eid).isNone then
    .error (.NotFound "Employee" eid)
  else if email_conflict db eid u then
    .error (.Duplicate "Employee" "email")
  else
    match (employee_written db eid u).get_by_id eid with
    | some row => .ok (employee_written db eid u, row)
    | none => .error .Internal

/-- Model of `EmployeeService.delete_employee`, MongoDB branch:
`delete_one(\x7b"id": eid\x7d)` removes the first matching document, NotFound
when nothing matched. No cascade: the `attendance` collection is untouched. -/
def delete_employee (db : MongoState) (eid : String) : Except ServiceError MongoState :=
  if (db.get_by_id eid).isNone then
    .error (.NotFound "Employee" eid)
  else
    .ok { db with employees := db.employees.eraseP (fun r => r.id == eid) }

/-- The duplicate probe of `AttendanceService.create_attendance`, MongoDB
branch: `find_one(\x7b"employee_id": ..., "date": ...\x7d)`. -/
def find_attendance_pair (db : MongoState) (eid date : String) :
    Option MongoAttendanceRow :=
  db.attendance.find? (fun r => r.employee_id == eid && r.date == date)

/-- Model of `AttendanceService.create_attendance`, MongoDB branch: employee existence
check, duplicate check, then `insert_one` returning a fresh object id that is
attached to the returned document. -/
def create_attendance (db : MongoState) (a : AttendanceCreateData) :
    Except ServiceError (MongoState × MongoAttendanceRow) :=
  if !(db.employee_exists a.employee_id) then
    .error (.NotFound "Employee" a.employee_id)
  else if (db.find_attendance_pair a.employee_id a.date).isSome then
    .error (.Duplicate "Attendance record" "date")
  else
    .ok ({ db with
            attendance := db.attendance ++ [⟨toString db.next_oid, a.employee_id, a.date, a.status⟩]
            next_oid := db.next_oid + 1 },
         ⟨toString db.next_oid, a.employee_id, a.date, a.status⟩)

/-- Model of `AttendanceService.update_attendance`, MongoDB branch: find the record by
its id, NotFound if absent, else `update_one` setting `status` on it. -/
def update_attendance (db : MongoState) (aid : String) (st : String) :
    Except ServiceError MongoState :=
  if (db.attendance.find? (fun r => r.id == aid)).isNone then
    .error (.NotFound "Attendance record" aid)
  else
    .ok { db with attendance :=
            update_first (fun r => r.id == aid) (fun r => { r with status := st }) db.attendance }

/-- Model of `AttendanceService.delete_attendance`, MongoDB branch: `delete_one` by id,
NotFound when nothing matched. -/
def delete_attendance (db : MongoState) (aid : String) : Except ServiceError MongoState :=
  if (db.attendance.find? (fun r => r.id == aid)).isNone then
    .error (.NotFound "Attendance record" aid)
  else
    .ok { db with attendance := db.attendance.eraseP (fun r => r.id == aid) }

/-- Model of `AttendanceService.get_employee_attendance_summary`, MongoDB branch: a
NotFound existence check through `get_employee`, then the two
`count_documents(\x7b"employee_id": ..., "status": ...\x7d)` calls. -/
def get_employee_attendance_summary (db : MongoState) (eid : String) :
    Except ServiceError EmployeeAttendanceSummary :=
  match db.get_by_id eid with
  | none => .error (.NotFound "Employee" eid)
  | some emp =>
    .ok ⟨eid, emp.name,
      (db.attendance.filter (fun r => r.employee_id == eid && r.status == "Present")).length,
      (db.attendance.filter (fun r => r.employee_id == eid && r.status == "Absent")).length⟩

end MongoState

/-! ### Reachable states (single-request, sequential execution)

A request is one service operation; a reachable store is the fold of a list of
operations over the empty store, each failing operation leaving the store
unchanged (the services raise before writing, and the relational writes are
single statements). -/

/-- One service operation against the SQLite backend. -/
inductive SqOp where
  | createEmp (e : EmployeeCreateData) (now : Nat)
  | updateEmp (eid : String) (u : EmployeeUpdateData)
  | deleteEmp (eid : String)
  | createAtt (a : AttendanceCreateData)
  | updateAtt (aid : Nat) (st : String)
  | deleteAtt (aid : Nat)
  deriving DecidableEq, Repr

/-- One service operation against the MongoDB backend. -/
inductive MgOp where
  | createEmp (e : EmployeeCreateData) (now : Nat)
  | updateEmp (eid : String) (u : EmployeeUpdateData)
  | deleteEmp (eid : String)
  | createAtt (a : AttendanceCreateData)
  | updateAtt (aid : String) (st : String)
  | deleteAtt (aid : String)
  deriving DecidableEq, Repr

namespace SqliteDB

/-- Effect of one operation on the SQLite store (errors leave it unchanged). -/
def step (db : SqliteDB) : SqOp → SqliteDB
  | .createEmp e now =>
    match db.create_employee e now with
    | .ok (db', _) => db'
    | .error _ => db
  | .updateEmp eid u =>
    match db.update_employee eid u with
    | .ok (db', _) => db'
    | .error _ => db
  | .deleteEmp eid =>
    match db.delete_employee eid with
    | .ok db' => db'
    | .error _ => db
  | .createAtt a =>
    match db.create_attendance a with
    | .ok (db', _) => db'
    | .error _ => db
  | .updateAtt aid st =>
    match db.update_attendance aid st with
    | .ok db' => db'
    | .error _ => db
  | .deleteAtt aid =>
    match db.delete_attendance aid with
    | .ok db' => db'
    | .error _ => db

/-- The freshly initialized SQLite store (init_tables_sqlite: empty tables,
AUTOINCREMENT starting at 1). -/
def init : SqliteDB := ⟨[], [], 1⟩

/-- The SQLite store after a sequence of service operations. -/
def run (ops : List SqOp) : SqliteDB := ops.foldl step init

end SqliteDB

namespace MongoState

/-- Effect of one operation on the MongoDB store (errors leave it unchanged). -/
def step (db : MongoState) : MgOp → MongoState
  | .createEmp e now =>
    match db.create_employee e now with
    | .ok (db', _) => db'
    | .error _ => db
  | .updateEmp eid u =>
    match db.update_employee eid u with
    | .ok (db', _) => db'
    | .error _ => db
  | .deleteEmp eid =>
    match db.delete_employee eid with
    | .ok db' => db'
    | .error _ => db
  | .createAtt a =>
    match db.create_attendance a with
    | .ok (db', _) => db'
    | .error _ => db
  | .updateAtt aid st =>
    match db.update_attendance aid st with
    | .ok db' => db'
    | .error _ => db
  | .deleteAtt aid =>
    match db.delete_attendance aid with
    | .ok db' => db'
    | .error _ => db

/-- The freshly initialized MongoDB store (empty collections). -/
def init : MongoState := ⟨[], [], 1⟩

/-- The MongoDB store after a sequence of service operations. -/
def run (ops : List MgOp) : MongoState := ops.foldl step init

end MongoState

/-- Two SQLite attendance rows do not collide on the (employee_id, date) key. -/
def att_pair_distinct (r s : AttendanceRow) : Prop :=
  ¬(r.employee_id = s.employee_id ∧ r.date = s.date)

instance : DecidableRel att_pair_distinct :=
  fun r s => inferInstanceAs (Decidable (¬(r.employee_id = s.employee_id ∧ r.date = s.date)))

/-- Two MongoDB attendance documents do not collide on the (employee_id, date) key. -/
def att_pair_distinct_m (r s : MongoAttendanceRow) : Prop :=
  ¬(r.employee_id = s.employee_id ∧ r.date = s.date)

instance : DecidableRel att_pair_distinct_m :=
  fun r s => inferInstanceAs (Decidable (¬(r.employee_id = s.employee_id ∧ r.date = s.date)))

/-- The SQLite store holds at most one attendance row per (employee_id, date). -/
def SqliteDB.att_unique (db : SqliteDB) : Prop :=
  db.attendance.Pairwise att_pair_distinct

/-- The MongoDB store holds at most one attendance document per (employee_id, date). -/
def MongoState.att_unique (db : MongoState) : Prop :=
  db.attendance.Pairwise att_pair_distinct_m

/-! ### Concrete example stores for the claim evaluations -/

/-- One employee `E001` with two attendance rows (the spec's cascade
round-trip test), built through the service operations on the SQLite backend. -/
def c1_db : SqliteDB :=
  SqliteDB.run
    [ .createEmp ⟨"E001", "Alice Smith", "a@x.com", "Engineering"⟩ 10,
      .createAtt ⟨"E001", "2024-01-01", "Present"⟩,
      .createAtt ⟨"E001", "2024-01-02", "Absent"⟩ ]

/-- Two employees created in order of increasing creation time on the MongoDB
backend (`E001` at time 0, then `E002` at time 1). -/
def c3_db : MongoState :=
  MongoState.run
    [ .createEmp ⟨"E001", "Alice Smith", "a@x.com", "Engineering"⟩ 0,
      .createEmp ⟨"E002", "Bob Jones", "b@x.com", "Sales"⟩ 1 ]

/-- One employee with one attendance row on the SQLite backend. -/
def c4_db : SqliteDB :=
  SqliteDB.run
    [ .createEmp ⟨"E001", "Alice Smith", "a@x.com", "Engineering"⟩ 10,
      .createAtt ⟨"E001", "2024-01-01", "Present"⟩ ]

/-- One employee with one attendance document on the MongoDB backend. -/
def c4_mdb : MongoState :=
  MongoState.run
    [ .createEmp ⟨"E001", "Alice Smith", "a@x.com", "Engineering"⟩ 10,
      .createAtt ⟨"E001", "2024-01-01", "Present"⟩ ]

/-- Two employees with distinct ids and emails on the SQLite backend. -/
def c7_db : SqliteDB :=
  SqliteDB.run
    [ .createEmp ⟨"E001", "Alice Smith", "a@x.com", "Engineering"⟩ 10,
      .createEmp ⟨"E002", "Bob Jones", "b@x.com", "Sales"⟩ 11 ]

/-- One employee on the SQLite backend. -/
def c8_db : SqliteDB :=
  SqliteDB.run [ .createEmp ⟨"E001", "Alice Smith", "a@x.com", "Engineering"⟩ 10 ]

/-- One employee with three Present and two Absent attendance rows (the
spec's summary example), built through the service operations. -/
def c9_db : SqliteDB :=
  SqliteDB.run
    [ .createEmp ⟨"E001", "Alice Smith", "a@x.com", "Engineering"⟩ 10,
      .createAtt ⟨"E001", "2024-01-01", "Present"⟩,
      .createAtt ⟨"E001", "2024-01-02", "Present"⟩,
      .createAtt ⟨"E001", "2024-01-03", "Present"⟩,
      .createAtt ⟨"E001", "2024-01-04", "Absent"⟩,
      .createAtt ⟨"E001", "2024-01-05", "Absent"⟩ ]

/-! ### Helper lemmas on the lookup and write primitives -/

lemma mem_update_first {p : α → Bool} {f : α → α} {b : α} :
    ∀ {l : List α}, b ∈ update_first p f l → b ∈ l ∨ ∃ c ∈ l, b = f c := by
  intro l
  induction l with
  | nil => intro h; exact absurd h (by simp [update_first])
  | cons x xs ih =>
    intro h
    simp only [update_first] at h
    by_cases hp : p x = true
    · rw [if_pos hp] at h
      rcases List.mem_cons.mp h with h | h
      · exact Or.inr ⟨x, List.mem_cons_self x xs, h⟩
      · exact Or.inl (List.mem_cons_of_mem x h)
    · rw [if_neg hp] at h
      rcases List.mem_cons.mp h with h | h
      · exact Or.inl (h ▸ List.mem_cons_self x xs)
      · rcases ih h with h | ⟨c, hc, hb⟩
        · exact Or.inl (List.mem_cons_of_mem x h)
        · exact Or.inr ⟨c, List.mem_cons_of_mem x hc, hb⟩

lemma mem_update_first_of_neg {p : α → Bool} {f : α → α} {r : α} :
    ∀ {l : List α}, r ∈ l → p r = false → r ∈ update_first p f l := by
  intro l
  induction l with
  | nil => intro hr _; exact absurd hr (by simp)
  | cons x xs ih =>
    intro hr hp
    simp only [update_first]
    rcases List.mem_cons.mp hr with rfl | hmem
    · rw [if_neg (by simp [hp])]
      exact List.mem_cons_self _ _
    · by_cases hx : p x = true
      · rw [if_pos hx]
        exact List.mem_cons_of_mem _ hmem
      · rw [if_neg hx]
        exact List.mem_cons_of_mem _ (ih hmem hp)

lemma update_first_length {p : α → Bool} {f : α → α} :
    ∀ (l : List α), (update_first p f l).length = l.length := by
  intro l
  induction l with
  | nil => rfl
  | cons x xs ih =>
    simp only [update_first]
    by_cases hx : p x = true
    · rw [if_pos hx]
      simp
    · rw [if_neg hx]
      simp [ih]

lemma pairwise_update_first {R : α → α → Prop} {p : α → Bool} {f : α → α}
    (hL : ∀ a b, R a b → R (f a) b) (hR : ∀ a b, R a b → R a (f b)) :
    ∀ {l : List α}, l.Pairwise R → (update_first p f l).Pairwise R := by
  intro l
  induction l with
  | nil => intro _; exact List.Pairwise.nil
  | cons x xs ih =>
    intro h
    rcases List.pairwise_cons.mp h with ⟨hx, hxs⟩
    simp only [update_first]
    by_cases hp : p x = true
    · rw [if_pos hp]
      exact List.pairwise_cons.mpr ⟨fun b hb => hL x b (hx b hb), hxs⟩
    · rw [if_neg hp]
      refine List.pairwise_cons.mpr ⟨fun b hb => ?_, ih hxs⟩
      rcases mem_update_first hb with hb | ⟨c, hc, hbc⟩
      · exact hx b hb
      · exact hbc ▸ hR x c (hx c hc)

lemma find_by_id_append_new (l : List EmployeeRow) (row : EmployeeRow)
    (h : find_by_id l row.id = none) : find_by_id (l ++ [row]) row.id = some row := by
  unfold find_by_id at *
  rw [List.find?_append, h]
  simp

lemma find_by_id_map_update (l : List EmployeeRow) (eid : String)
    (f : EmployeeRow → EmployeeRow) (hf : ∀ r, (f r).id = r.id) :
    find_by_id (l.map (fun r => if r.id == eid then f r else r)) eid =
      (find_by_id l eid).map f := by
  unfold find_by_id
  induction l with
  | nil => rfl
  | cons a l ih =>
    by_cases h : a.id = eid
    · have hb : (a.id == eid) = true := beq_iff_eq.mpr h
      simp [List.find?_cons, hb, h, hf a]
    · have hb : (a.id == eid) = false := beq_eq_false_iff_ne.mpr h
      simpa [List.find?_cons, hb, h] using ih

lemma find_by_id_update_first (l : List EmployeeRow) (eid : String)
    (f : EmployeeRow → EmployeeRow) (hf : ∀ r, (f r).id = r.id) :
    find_by_id (update_first (fun r => r.id == eid) f l) eid =
      (find_by_id l eid).map f := by
  unfold find_by_id
  induction l with
  | nil => rfl
  | cons a l ih =>
    by_cases h : a.id = eid
    · have hb : (a.id == eid) = true := beq_iff_eq.mpr h
      simp [update_first, List.find?_cons, hb, h, hf a]
    · have hb : (a.id == eid) = false := beq_eq_false_iff_ne.mpr h
      simpa [update_first, List.find?_cons, hb, h] using ih

lemma find_by_id_eq_some {l : List EmployeeRow} {eid : String} {r : EmployeeRow}
    (h : find_by_id l eid = some r) : r ∈ l ∧ r.id = eid := by
  refine ⟨List.mem_of_find?_eq_some h, ?_⟩
  have := List.find?_some h
  exact beq_iff_eq.mp this

lemma find_by_id_isSome {l : List EmployeeRow} {eid : String} :
    (find_by_id l eid).isSome ↔ ∃ r ∈ l, r.id = eid := by
  unfold find_by_id
  rw [List.find?_isSome]
  simp

lemma find_by_email_isSome {l : List EmployeeRow} {em : String} :
    (find_by_email l em).isSome ↔ ∃ r ∈ l, r.email = em := by
  unfold find_by_email
  rw [List.find?_isSome]
  simp

lemma find_by_email_eq_some {l : List EmployeeRow} {em : String} {r : EmployeeRow}
    (h : find_by_email l em = some r) : r ∈ l ∧ r.email = em := by
  refine ⟨List.mem_of_find?_eq_some h, ?_⟩
  have := List.find?_some h
  exact beq_iff_eq.mp this

lemma beq_decide (a b : String) : (a == b) = decide (a = b) := by
  by_cases h : a = b
  · simp [h]
  · simp [h]

lemma update_has_fields_false {u : EmployeeUpdateData}
    (h : SqliteDB.update_has_fields u = false) : u = ⟨none, none, none⟩ := by
  rcases u with ⟨un, ue, ud⟩
  cases un <;> cases ue <;> cases ud <;> simp_all [SqliteDB.update_has_fields]

lemma find_by_id_eq_none {l : List EmployeeRow} {eid : String}
    (h : ¬∃ r ∈ l, r.id = eid) : find_by_id l eid = none :=
  Option.not_isSome_iff_eq_none.mp (fun hs => h (find_by_id_isSome.mp hs))

lemma find_by_email_eq_none {l : List EmployeeRow} {em : String}
    (h : ¬∃ r ∈ l, r.email = em) : find_by_email l em = none :=
  Option.not_isSome_iff_eq_none.mp (fun hs => h (find_by_email_isSome.mp hs))

/-! ### Frame lemmas: which part of the store each operation writes -/

namespace SqliteDB

lemma employee_written_att (db : SqliteDB) (eid : String) (u : EmployeeUpdateData) :
    (employee_written db eid u).attendance = db.attendance := by
  unfold employee_written
  split <;> rfl

lemma create_employee_ok_att {db db' : SqliteDB} {e : EmployeeCreateData} {now : Nat}
    {row : EmployeeRow} (h : db.create_employee e now = .ok (db', row)) :
    db'.attendance = db.attendance := by
  unfold create_employee at h
  split at h
  · exact absurd h (by simp)
  · split at h
    · exact absurd h (by simp)
    · split at h
      · cases h; rfl
      · exact absurd h (by simp)

lemma create_employee_ok_emps {db db' : SqliteDB} {e : EmployeeCreateData} {now : Nat}
    {row : EmployeeRow} (h : db.create_employee e now = .ok (db', row)) :
    db'.employees = db.employees ++ [⟨e.id, e.name, e.email, e.department, now⟩] := by
  unfold create_employee at h
  split at h
  · exact absurd h (by simp)
  · split at h
    · exact absurd h (by simp)
    · split at h
      · cases h; rfl
      · exact absurd h (by simp)

lemma update_employee_ok_att {db db' : SqliteDB} {eid : String} {u : EmployeeUpdateData}
    {row : EmployeeRow} (h : db.update_employee eid u = .ok (db', row)) :
    db'.attendance = db.attendance := by
  unfold update_employee at h
  split at h
  · exact absurd h (by simp)
  · split at h
    · exact absurd h (by simp)
    · split at h
      · cases h; exact employee_written_att db eid u
      · exact absurd h (by simp)

lemma delete_employee_ok_att {db db' : SqliteDB} {eid : String}
    (h : db.delete_employee eid = .ok db') : db'.attendance = db.attendance := by
  unfold delete_employee at h
  split at h
  · exact absurd h (by simp)
  · cases h; rfl

lemma create_attendance_ok {db db' : SqliteDB} {a : AttendanceCreateData}
    {row : AttendanceRow} (h : db.create_attendance a = .ok (db', row)) :
    db'.attendance = db.attendance ++ [row] ∧
      db.find_attendance_pair a.employee_id a.date = none ∧
      row.employee_id = a.employee_id ∧ row.date = a.date := by
  unfold create_attendance at h
  split at h
  · exact absurd h (by simp)
  · split at h
    · exact absurd h (by simp)
    · cases h
      rename_i hdup
      exact ⟨rfl, Option.not_isSome_iff_eq_none.mp hdup, rfl, rfl⟩

lemma update_attendance_ok {db db' : SqliteDB} {aid : Nat} {st : String}
    (h : db.update_attendance aid st = .ok db') :
    db'.attendance =
      db.attendance.map (fun r => if r.id == aid then { r with status := st } else r) := by
  unfold update_attendance at h
  split at h
  · exact absurd h (by simp)
  · cases h; rfl

lemma delete_attendance_ok {db db' : SqliteDB} {aid : Nat}
    (h : db.delete_attendance aid = .ok db') :
    db'.attendance = db.attendance.filter (fun r => !(r.id == aid)) := by
  unfold delete_attendance at h
  split at h
  · exact absurd h (by simp)
  · cases h; rfl

/-- Every single service operation preserves the (employee_id, date)
uniqueness of the attendance table. -/
lemma att_unique_step (db : SqliteDB) (h : db.att_unique) (op : SqOp) :
    (db.step op).att_unique := by
  cases op with
  | createEmp e now =>
    simp only [step]
    cases hres : db.create_employee e now with
    | ok p =>
      obtain ⟨db', row⟩ := p
      unfold att_unique
      rw [create_employee_ok_att hres]
      exact h
    | error _ => exact h
  | updateEmp eid u =>
    simp only [step]
    cases hres : db.update_employee eid u with
    | ok p =>
      obtain ⟨db', row⟩ := p
      unfold att_unique
      rw [update_employee_ok_att hres]
      exact h
    | error _ => exact h
  | deleteEmp eid =>
    simp only [step]
    cases hres : db.delete_employee eid with
    | ok db' =>
      unfold att_unique
      rw [delete_employee_ok_att hres]
      exact h
    | error _ => exact h
  | createAtt a =>
    simp only [step]
    cases hres : db.create_attendance a with
    | ok p =>
      obtain ⟨db', row⟩ := p
      obtain ⟨hatt, hnone, hrow1, hrow2⟩ := create_attendance_ok hres
      have hfresh : ∀ x ∈ db.attendance,
          ¬(x.employee_id = a.employee_id ∧ x.date = a.date) := by
        intro x hx
        have := List.find?_eq_none.mp hnone x hx
        simpa [find_attendance_pair] using this
      unfold att_unique
      rw [hatt]
      refine List.pairwise_append.mpr ⟨h, List.pairwise_singleton _ _, ?_⟩
      intro x hx b hb
      rcases List.mem_singleton.mp hb with rfl
      intro hcol
      exact hfresh x hx ⟨hrow1 ▸ hcol.1, hrow2 ▸ hcol.2⟩
    | error _ => exact h
  | updateAtt aid st =>
    simp only [step]
    cases hres : db.update_attendance aid st with
    | ok db' =>
      unfold att_unique
      rw [update_attendance_ok hres]
      refine List.Pairwise.map _ ?_ h
      intro x y hxy hcol
      apply hxy
      constructor
      · have ex : (if (x.id == aid) = true then { x with status := st } else x).employee_id
            = x.employee_id := by split <;> rfl
        have ey : (if (y.id == aid) = true then { y with status := st } else y).employee_id
            = y.employee_id := by split <;> rfl
        rw [← ex, ← ey]; exact hcol.1
      · have ex : (if (x.id == aid) = true then { x with status := st } else x).date
            = x.date := by split <;> rfl
        have ey : (if (y.id == aid) = true then { y with status := st } else y).date
            = y.date := by split <;> rfl
        rw [← ex, ← ey]; exact hcol.2
    | error _ => exact h
  | deleteAtt aid =>
    simp only [step]
    cases hres : db.delete_attendance aid with
    | ok db' =>
      unfold att_unique
      rw [delete_attendance_ok hres]
      exact h.filter _
    | error _ => exact h

lemma att_unique_foldl :
    ∀ (ops : List SqOp) (db : SqliteDB), db.att_unique → (ops.foldl step db).att_unique
  | [], _, h => h
  | op :: ops, db, h => att_unique_foldl ops (db.step op) (att_unique_step db h op)

end SqliteDB

namespace MongoState

lemma employee_written_att_m (db : MongoState) (eid : String) (u : EmployeeUpdateData) :
    (employee_written db eid u).attendance = db.attendance := by
  unfold employee_written
  split <;> rfl

lemma create_employee_ok_att_m {db db' : MongoState} {e : EmployeeCreateData} {now : Nat}
    {row : EmployeeRow} (h : db.create_employee e now = .ok (db', row)) :
    db'.attendance = db.attendance := by
  unfold create_employee at h
  split at h
  · exact absurd h (by simp)
  · split at h
    · exact absurd h (by simp)
    · cases h; rfl

lemma create_employee_ok_emps_m {db db' : MongoState} {e : EmployeeCreateData} {now : Nat}
    {row : EmployeeRow} (h : db.create_employee e now = .ok (db', row)) :
    db'.employees = db.employees ++ [⟨e.id, e.name, e.email, e.department, now⟩] := by
  unfold create_employee at h
  split at h
  · exact absurd h (by simp)
  · split at h
    · exact absurd h (by simp)
    · cases h; rfl

lemma update_employee_ok_att_m {db db' : MongoState} {eid : String} {u : EmployeeUpdateData}
    {row : EmployeeRow} (h : db.update_employee eid u = .ok (db', row)) :
    db'.attendance = db.attendance := by
  unfold update_employee at h
  split at h
  · exact absurd h (by simp)
  · split at h
    · exact absurd h (by simp)
    · split at h
      · cases h; exact employee_written_att_m db eid u
      · exact absurd h (by simp)

lemma delete_employee_ok_att_m {db db' : MongoState} {eid : String}
    (h : db.delete_employee eid = .ok db') : db'.attendance = db.attendance := by
  unfold delete_employee at h
  split at h
  · exact absurd h (by simp)
  · cases h; rfl

lemma create_attendance_ok_m {db db' : MongoState} {a : AttendanceCreateData}
    {row : MongoAttendanceRow} (h : db.create_attendance a = .ok (db', row)) :
    db'.attendance = db.attendance ++ [row] ∧
      db.find_attendance_pair a.employee_id a.date = none ∧
      row.employee_id = a.employee_id ∧ row.date = a.date := by
  unfold create_attendance at h
  split at h
  · exact absurd h (by simp)
  · split at h
    · exact absurd h (by simp)
    · cases h
      rename_i hdup
      exact ⟨rfl, Option.not_isSome_iff_eq_none.mp hdup, rfl, rfl⟩

lemma update_attendance_ok_m {db db' : MongoState} {aid : String} {st : String}
    (h : db.update_attendance aid st = .ok db') :
    db'.attendance =
      update_first (fun r => r.id == aid) (fun r => { r with status := st }) db.attendance := by
  unfold update_attendance at h
  split at h
  · exact absurd h (by simp)
  · cases h; rfl

lemma delete_attendance_ok_m {db db' : MongoState} {aid : String}
    (h : db.delete_attendance aid = .ok db') :
    db'.attendance = db.attendance.eraseP (fun r => r.id == aid) := by
  unfold delete_attendance at h
  split at h
  · exact absurd h (by simp)
  · cases h; rfl

/-- Every single service operation preserves the (employee_id, date)
uniqueness of the attendance collection. -/
lemma att_unique_step_m (db : MongoState) (h : db.att_unique) (op : MgOp) :
    (db.step op).att_unique := by
  cases op with
  | createEmp e now =>
    simp only [step]
    cases hres : db.create_employee e now with
    | ok p =>
      obtain ⟨db', row⟩ := p
      unfold att_unique
      rw [create_employee_ok_att_m hres]
      exact h
    | error _ => exact h
  | updateEmp eid u =>
    simp only [step]
    cases hres : db.update_employee eid u with
    | ok p =>
      obtain ⟨db', row⟩ := p
      unfold att_unique
      rw [update_employee_ok_att_m hres]
      exact h
    | error _ => exact h
  | deleteEmp eid =>
    simp only [step]
    cases hres : db.delete_employee eid with
    | ok db' =>
      unfold att_unique
      rw [delete_employee_ok_att_m hres]
      exact h
    | error _ => exact h
  | createAtt a =>
    simp only [step]
    cases hres : db.create_attendance a with
    | ok p =>
      obtain ⟨db', row⟩ := p
      obtain ⟨hatt, hnone, hrow1, hrow2⟩ := create_attendance_ok_m hres
      have hfresh : ∀ x ∈ db.attendance,
          ¬(x.employee_id = a.employee_id ∧ x.date = a.date) := by
        intro x hx
        have := List.find?_eq_none.mp hnone x hx
        simpa [find_attendance_pair] using this
      unfold att_unique
      rw [hatt]
      refine List.pairwise_append.mpr ⟨h, List.pairwise_singleton _ _, ?_⟩
      intro x hx b hb
      rcases List.mem_singleton.mp hb with rfl
      intro hcol
      exact hfresh x hx ⟨hrow1 ▸ hcol.1, hrow2 ▸ hcol.2⟩
    | error _ => exact h
  | updateAtt aid st =>
    simp only [step]
    cases hres : db.update_attendance aid st with
    | ok db' =>
      unfold att_unique
      rw [update_attendance_ok_m hres]
      refine pairwise_update_first ?_ ?_ h
      · intro x y hxy hcol
        exact hxy hcol
      · intro x y hxy hcol
        exact hxy hcol
    | error _ => exact h
  | deleteAtt aid =>
    simp only [step]
    cases hres : db.delete_attendance aid with
    | ok db' =>
      unfold att_unique
      rw [delete_attendance_ok_m hres]
      exact List.Pairwise.sublist (List.eraseP_sublist _) h
    | error _ => exact h

lemma att_unique_foldl_m :
    ∀ (ops : List MgOp) (db : MongoState), db.att_unique → (ops.foldl step db).att_unique
  | [], _, h => h
  | op :: ops, db, h => att_unique_foldl_m ops (db.step op) (att_unique_step_m db h op)

end MongoState

/-! ## Claim C1 -/

/-- Claim C1: deleting an employee in the relational backend is claimed to
remove all attendance rows for that id (foreign-key cascade). The code does
not behave this way: `Database.get_connection` never issues
`PRAGMA foreign_keys = ON`, so SQLite leaves the declared
`ON DELETE CASCADE` unenforced. Evaluating the code at the spec's own
round-trip test (employee `E001` with two attendance rows): `delete("E001")`
succeeds and removes the employee, yet both attendance rows for `E001`
remain in the attendance table. -/
theorem C1_cascade_not_enforced :
    ∃ db' : SqliteDB, c1_db.delete_employee "E001" = .ok db' ∧
      db'.employees = [] ∧
      (db'.attendance.filter (fun r => r.employee_id == "E001")).length = 2 := by
  refine ⟨⟨[], [⟨1, "E001", "2024-01-01", "Present"⟩, ⟨2, "E001", "2024-01-02", "Absent"⟩], 3⟩,
    ?_, rfl, rfl⟩
  rfl

/-! ## Claim C2 -/

/-- Claim C2 (as stated) is false: the claim says the status input
`"present"` is case-normalized and accepted, but `AttendanceCreate` — the
schema validating attendance creation requests — constrains `status` with the
case-sensitive pattern `^(Present|Absent)$` and does not inherit
`AttendanceBase.validate_status`, so `"present"` is rejected at validation. -/
theorem C2_counterexample :
    attendanceCreate_valid "E001" "2024-01-01" "present" = false := by
  rfl

/-- Claim C2 (amended): attendance creation accepts exactly the literal
statuses `"Present"` and `"Absent"`; no case normalization happens at the
creation boundary, so `"present"` is rejected with a validation error, and so
is any other token such as `"Maybe"`. (The capitalizing
`AttendanceBase.validate_status` exists in the schema module — it maps
`"present"` to `"Present"` — but `AttendanceCreate` does not use it.) -/
theorem C2_status_validation :
    (∀ eid d st, attendanceCreate_valid eid d st = true → st = "Present" ∨ st = "Absent")
    ∧ attendanceCreate_valid "E001" "2024-01-01" "Present" = true
    ∧ attendanceCreate_valid "E001" "2024-01-01" "Absent" = true
    ∧ attendanceCreate_valid "E001" "2024-01-01" "present" = false
    ∧ attendanceCreate_valid "E001" "2024-01-01" "Maybe" = false
    ∧ validate_status "present" = some "Present" := by
  refine ⟨?_, rfl, rfl, rfl, rfl, rfl⟩
  intro eid d st h
  unfold attendanceCreate_valid at h
  simp only [Bool.and_eq_true, Bool.or_eq_true, beq_iff_eq] at h
  exact h.2

/-- Claim C2 witness: the amended theorem instantiated at the valid literal
status `"Present"`. -/
theorem C2_status_validation_witness :
    ("Present" = "Present" ∨ ("Present" : String) = "Absent") :=
  C2_status_validation.1 "E001" "2024-01-01" "Present" (by rfl)

/-! ## Claim C3 -/

/-- Claim C3 (as stated) is false: it claims that in both backends the list
operation returns employees newest first, but the MongoDB branch of
`get_employees` calls `find_many` with no sort, which yields natural
(insertion) order. In the reachable store `c3_db`, where `E001` was created
at time 0 before `E002` at time 1, the returned list is not ordered by
creation time descending. -/
theorem C3_counterexample :
    ¬ List.Sorted SqliteDB.created_desc c3_db.get_employees := by
  decide

/-- Claim C3 (amended): the SQLite backend returns all employees ordered by
`created_at` descending (`ORDER BY created_at DESC`); the MongoDB backend
instead returns the employees in natural (insertion) order — i.e. ascending
creation order — capped at the first 1000 documents, with no sort applied. -/
theorem C3_list_ordering :
    (∀ db : SqliteDB,
      List.Sorted SqliteDB.created_desc db.get_employees ∧
      db.get_employees.Perm db.employees)
    ∧ (∀ db : MongoState, db.get_employees = db.employees.take 1000) := by
  constructor
  · intro db
    exact ⟨List.sorted_insertionSort SqliteDB.created_desc db.employees,
           List.perm_insertionSort SqliteDB.created_desc db.employees⟩
  · intro db
    unfold MongoState.get_employees
    rw [List.drop_zero]

/-! ## Claim C4 -/

/-- Claim C4: in every store reachable through the service operations
(sequential execution), the attendance table/collection holds at most one
record per (employee_id, date) pair, in both backends; moreover, creating a
second record for the same existing employee and the same date fails with
Duplicate (and, the result being an error, no state change is produced). -/
theorem C4_attendance_uniqueness :
    (∀ ops : List SqOp, (SqliteDB.run ops).att_unique)
    ∧ (∀ ops : List MgOp, (MongoState.run ops).att_unique)
    ∧ (∀ (db : SqliteDB) (a : AttendanceCreateData),
        db.employee_exists a.employee_id = true →
        (∃ r ∈ db.attendance, r.employee_id = a.employee_id ∧ r.date = a.date) →
        db.create_attendance a = .error (.Duplicate "Attendance record" "date"))
    ∧ (∀ (db : MongoState) (a : AttendanceCreateData),
        db.employee_exists a.employee_id = true →
        (∃ r ∈ db.attendance, r.employee_id = a.employee_id ∧ r.date = a.date) →
        db.create_attendance a = .error (.Duplicate "Attendance record" "date")) := by
  refine ⟨?_, ?_, ?_, ?_⟩
  · intro ops
    exact SqliteDB.att_unique_foldl ops SqliteDB.init List.Pairwise.nil
  · intro ops
    exact MongoState.att_unique_foldl_m ops MongoState.init List.Pairwise.nil
  · intro db a hex hdup
    obtain ⟨r, hr, hre, hrd⟩ := hdup
    have hs : (db.find_attendance_pair a.employee_id a.date).isSome = true := by
      unfold SqliteDB.find_attendance_pair
      exact List.find?_isSome.mpr ⟨r, hr, by simp [hre, hrd]⟩
    simp [SqliteDB.create_attendance, hex, hs]
  · intro db a hex hdup
    obtain ⟨r, hr, hre, hrd⟩ := hdup
    have hs : (db.find_attendance_pair a.employee_id a.date).isSome = true := by
      unfold MongoState.find_attendance_pair
      exact List.find?_isSome.mpr ⟨r, hr, by simp [hre, hrd]⟩
    simp [MongoState.create_attendance, hex, hs]

/-- Claim C4 witness: in the reachable stores `c4_db`/`c4_mdb`, which already
hold a record for (`E001`, 2024-01-01), a second creation for that pair fails
with Duplicate in both backends (even with a different status). -/
theorem C4_attendance_uniqueness_witness :
    c4_db.create_attendance ⟨"E001", "2024-01-01", "Absent"⟩ =
        .error (.Duplicate "Attendance record" "date") ∧
    c4_mdb.create_attendance ⟨"E001", "2024-01-01", "Absent"⟩ =
        .error (.Duplicate "Attendance record" "date") :=
  ⟨C4_attendance_uniqueness.2.2.1 c4_db ⟨"E001", "2024-01-01", "Absent"⟩ (by rfl)
      ⟨⟨1, "E001", "2024-01-01", "Present"⟩, by decide, rfl, rfl⟩,
   C4_attendance_uniqueness.2.2.2 c4_mdb ⟨"E001", "2024-01-01", "Absent"⟩ (by rfl)
      ⟨⟨"1", "E001", "2024-01-01", "Present"⟩, by decide, rfl, rfl⟩⟩

/-! ## Claim C5 -/

/-- Claim C5: attendance creation first resolves the employee through the
Employee Service existence probe and fails with NotFound when it does not
resolve — for arbitrary `date` and `status` values; with the employee
present it fails with Duplicate when a record for (employee_id, date) already
exists; otherwise it persists the record and returns it with the
backend-assigned id (the AUTOINCREMENT rowid on SQLite, the generated object
id on MongoDB). -/
theorem C5_create_attendance_outcome :
    (∀ (db : SqliteDB) (a : AttendanceCreateData),
      (db.employee_exists a.employee_id = false →
        db.create_attendance a = .error (.NotFound "Employee" a.employee_id))
      ∧ (db.employee_exists a.employee_id = true →
          (db.find_attendance_pair a.employee_id a.date).isSome = true →
          db.create_attendance a = .error (.Duplicate "Attendance record" "date"))
      ∧ (db.employee_exists a.employee_id = true →
          db.find_attendance_pair a.employee_id a.date = none →
          db.create_attendance a =
            .ok ({ db with
                    attendance := db.attendance ++
                      [⟨db.next_attendance_id, a.employee_id, a.date, a.status⟩],
                    next_attendance_id := db.next_attendance_id + 1 },
                 ⟨db.next_attendance_id, a.employee_id, a.date, a.status⟩)))
    ∧ (∀ (db : MongoState) (a : AttendanceCreateData),
      (db.employee_exists a.employee_id = false →
        db.create_attendance a = .error (.NotFound "Employee" a.employee_id))
      ∧ (db.employee_exists a.employee_id = true →
          (db.find_attendance_pair a.employee_id a.date).isSome = true →
          db.create_attendance a = .error (.Duplicate "Attendance record" "date"))
      ∧ (db.employee_exists a.employee_id = true →
          db.find_attendance_pair a.employee_id a.date = none →
          db.create_attendance a =
            .ok ({ db with
                    attendance := db.attendance ++
                      [⟨toString db.next_oid, a.employee_id, a.date, a.status⟩],
                    next_oid := db.next_oid + 1 },
                 ⟨toString db.next_oid, a.employee_id, a.date, a.status⟩))) := by
  constructor
  · intro db a
    refine ⟨?_, ?_, ?_⟩
    · intro hex
      simp [SqliteDB.create_attendance, hex]
    · intro hex hs
      simp [SqliteDB.create_attendance, hex, hs]
    · intro hex hnone
      simp [SqliteDB.create_attendance, hex, hnone]
  · intro db a
    refine ⟨?_, ?_, ?_⟩
    · intro hex
      simp [MongoState.create_attendance, hex]
    · intro hex hs
      simp [MongoState.create_attendance, hex, hs]
    · intro hex hnone
      simp [MongoState.create_attendance, hex, hnone]

/-- Claim C5 witness: against the empty stores, creating attendance for the
absent employee `E001` fails with NotFound in both backends. -/
theorem C5_create_attendance_outcome_witness :
    SqliteDB.init.create_attendance ⟨"E001", "2024-01-01", "Present"⟩ =
        .error (.NotFound "Employee" "E001") ∧
    MongoState.init.create_attendance ⟨"E001", "2024-01-01", "Present"⟩ =
        .error (.NotFound "Employee" "E001") :=
  ⟨(C5_create_attendance_outcome.1 SqliteDB.init ⟨"E001", "2024-01-01", "Present"⟩).1 rfl,
   (C5_create_attendance_outcome.2 MongoState.init ⟨"E001", "2024-01-01", "Present"⟩).1 rfl⟩

/-! ## Claim C6 -/

/-- Claim C6: employee creation fails with Duplicate when an employee with
the same id is already present, or (id fresh) when one with the same email is
already present; otherwise it persists the employee with the server-assigned
`created_at` timestamp and returns the full record. Consequently a given
id/email pair is created successfully at most once: after a successful
create, repeating it fails with Duplicate. Both backends. -/
theorem C6_create_employee_uniqueness :
    (∀ (db : SqliteDB) (e : EmployeeCreateData) (now : Nat),
      ((∃ r ∈ db.employees, r.id = e.id) →
        db.create_employee e now = .error (.Duplicate "Employee" "ID"))
      ∧ ((¬∃ r ∈ db.employees, r.id = e.id) → (∃ r ∈ db.employees, r.email = e.email) →
        db.create_employee e now = .error (.Duplicate "Employee" "email"))
      ∧ ((¬∃ r ∈ db.employees, r.id = e.id) → (¬∃ r ∈ db.employees, r.email = e.email) →
        db.create_employee e now =
          .ok ({ db with employees :=
                   db.employees ++ [⟨e.id, e.name, e.email, e.department, now⟩] },
               ⟨e.id, e.name, e.email, e.department, now⟩))
      ∧ (∀ db' row, db.create_employee e now = .ok (db', row) →
          ∀ now2, db'.create_employee e now2 = .error (.Duplicate "Employee" "ID")))
    ∧ (∀ (db : MongoState) (e : EmployeeCreateData) (now : Nat),
      ((∃ r ∈ db.employees, r.id = e.id) →
        db.create_employee e now = .error (.Duplicate "Employee" "ID"))
      ∧ ((¬∃ r ∈ db.employees, r.id = e.id) → (∃ r ∈ db.employees, r.email = e.email) →
        db.create_employee e now = .error (.Duplicate "Employee" "email"))
      ∧ ((¬∃ r ∈ db.employees, r.id = e.id) → (¬∃ r ∈ db.employees, r.email = e.email) →
        db.create_employee e now =
          .ok ({ db with employees :=
                   db.employees ++ [⟨e.id, e.name, e.email, e.department, now⟩] },
               ⟨e.id, e.name, e.email, e.department, now⟩))
      ∧ (∀ db' row, db.create_employee e now = .ok (db', row) →
          ∀ now2, db'.create_employee e now2 = .error (.Duplicate "Employee" "ID"))) := by
  constructor
  · intro db e now
    refine ⟨?_, ?_, ?_, ?_⟩
    · intro hid
      have hs : (db.get_by_id e.id).isSome = true := find_by_id_isSome.mpr hid
      simp [SqliteDB.create_employee, hs]
    · intro hid hem
      have h1 : db.get_by_id e.id = none := find_by_id_eq_none hid
      have hs : (db.get_by_email e.email).isSome = true := find_by_email_isSome.mpr hem
      simp [SqliteDB.create_employee, h1, hs]
    · intro hid hem
      have h1 : find_by_id db.employees e.id = none := find_by_id_eq_none hid
      have h2 : find_by_email db.employees e.email = none := find_by_email_eq_none hem
      have h3 : find_by_id
          (db.employees ++ [⟨e.id, e.name, e.email, e.department, now⟩]) e.id =
          some ⟨e.id, e.name, e.email, e.department, now⟩ :=
        find_by_id_append_new db.employees ⟨e.id, e.name, e.email, e.department, now⟩ h1
      simp [SqliteDB.create_employee, SqliteDB.get_by_id, SqliteDB.get_by_email, h1, h2, h3]
    · intro db' row h now2
      have hemps := SqliteDB.create_employee_ok_emps h
      have hs : (db'.get_by_id e.id).isSome = true := by
        unfold SqliteDB.get_by_id
        rw [hemps]
        exact find_by_id_isSome.mpr ⟨⟨e.id, e.name, e.email, e.department, now⟩, by simp, rfl⟩
      simp [SqliteDB.create_employee, hs]
  · intro db e now
    refine ⟨?_, ?_, ?_, ?_⟩
    · intro hid
      have hs : (db.get_by_id e.id).isSome = true := find_by_id_isSome.mpr hid
      simp [MongoState.create_employee, hs]
    · intro hid hem
      have h1 : db.get_by_id e.id = none := find_by_id_eq_none hid
      have hs : (db.get_by_email e.email).isSome = true := find_by_email_isSome.mpr hem
      simp [MongoState.create_employee, h1, hs]
    · intro hid hem
      have h1 : db.get_by_id e.id = none := find_by_id_eq_none hid
      have h2 : db.get_by_email e.email = none := find_by_email_eq_none hem
      simp [MongoState.create_employee, h1, h2]
    · intro db' row h now2
      have hemps := MongoState.create_employee_ok_emps_m h
      have hs : (db'.get_by_id e.id).isSome = true := by
        unfold MongoState.get_by_id
        rw [hemps]
        exact find_by_id_isSome.mpr ⟨⟨e.id, e.name, e.email, e.department, now⟩, by simp, rfl⟩
      simp [MongoState.create_employee, hs]

/-- Claim C6 witness: creating `E001`/`a@x.com` against the empty store
succeeds with the assigned `created_at`, and an immediate identical re-create
on the resulting store fails with Duplicate, in both backends. -/
theorem C6_create_employee_uniqueness_witness :
    (SqliteDB.init.create_employee ⟨"E001", "Alice Smith", "a@x.com", "Engineering"⟩ 10 =
      .ok (⟨[⟨"E001", "Alice Smith", "a@x.com", "Engineering", 10⟩], [], 1⟩,
           ⟨"E001", "Alice Smith", "a@x.com", "Engineering", 10⟩))
    ∧ (SqliteDB.mk [⟨"E001", "Alice Smith", "a@x.com", "Engineering", 10⟩] [] 1
        |>.create_employee ⟨"E001", "Alice Smith", "a@x.com", "Engineering"⟩ 11) =
          .error (.Duplicate "Employee" "ID")
    ∧ (MongoState.init.create_employee ⟨"E001", "Alice Smith", "a@x.com", "Engineering"⟩ 10 =
      .ok (⟨[⟨"E001", "Alice Smith", "a@x.com", "Engineering", 10⟩], [], 1⟩,
           ⟨"E001", "Alice Smith", "a@x.com", "Engineering", 10⟩)) := by
  refine ⟨?_, ?_, ?_⟩
  · exact (C6_create_employee_uniqueness.1 SqliteDB.init
      ⟨"E001", "Alice Smith", "a@x.com", "Engineering"⟩ 10).2.2.1
      (by rintro ⟨r, hr, -⟩; exact absurd hr (by simp [SqliteDB.init]))
      (by rintro ⟨r, hr, -⟩; exact absurd hr (by simp [SqliteDB.init]))
  · exact (C6_create_employee_uniqueness.1
      (SqliteDB.mk [⟨"E001", "Alice Smith", "a@x.com", "Engineering", 10⟩] [] 1)
      ⟨"E001", "Alice Smith", "a@x.com", "Engineering"⟩ 11).1
      ⟨⟨"E001", "Alice Smith", "a@x.com", "Engineering", 10⟩, by simp, rfl⟩
  · exact (C6_create_employee_uniqueness.2 MongoState.init
      ⟨"E001", "Alice Smith", "a@x.com", "Engineering"⟩ 10).2.2.1
      (by rintro ⟨r, hr, -⟩; exact absurd hr (by simp [MongoState.init]))
      (by rintro ⟨r, hr, -⟩; exact absurd hr (by simp [MongoState.init]))

/-! ## Claim C7 -/

/-- Claim C7: updating fails with NotFound when no employee has the updated
id; when an email is among the supplied fields (and the stored emails are
pairwise distinct, as the create/update checks guarantee), the update fails
with Duplicate exactly when a different employee — one whose id is not the
updated id — already owns that email; in particular re-submitting the
employee's own email is not a Duplicate. Both backends. -/
theorem C7_update_email_uniqueness :
    (∀ (db : SqliteDB) (eid : String) (u : EmployeeUpdateData),
      ((¬∃ r ∈ db.employees, r.id = eid) →
        db.update_employee eid u = .error (.NotFound "Employee" eid))
      ∧ (∀ em, u.email = some em →
          (db.employees.map (fun r => r.email)).Nodup →
          (∃ r ∈ db.employees, r.id = eid) →
          (db.update_employee eid u = .error (.Duplicate "Employee" "email") ↔
            ∃ r ∈ db.employees, r.email = em ∧ r.id ≠ eid)))
    ∧ (∀ (db : MongoState) (eid : String) (u : EmployeeUpdateData),
      ((¬∃ r ∈ db.employees, r.id = eid) →
        db.update_employee eid u = .error (.NotFound "Employee" eid))
      ∧ (∀ em, u.email = some em →
          (db.employees.map (fun r => r.email)).Nodup →
          (∃ r ∈ db.employees, r.id = eid) →
          (db.update_employee eid u = .error (.Duplicate "Employee" "email") ↔
            ∃ r ∈ db.employees, r.email = em ∧ r.id ≠ eid))) := by
  constructor
  · intro db eid u
    constructor
    · intro hid
      have h1 : find_by_id db.employees eid = none := find_by_id_eq_none hid
      simp [SqliteDB.update_employee, SqliteDB.get_by_id, h1]
    · intro em hem hnodup hex
      have hidSome : (db.get_by_id eid).isSome = true :=
        find_by_id_isSome.mpr hex
      obtain ⟨r₀, hr₀⟩ := Option.isSome_iff_exists.mp hidSome
      constructor
      · intro hres
        by_cases hc : SqliteDB.email_conflict db eid u = true
        · unfold SqliteDB.email_conflict at hc
          rw [hem] at hc
          dsimp only at hc
          cases hfe : db.get_by_email em with
          | none => rw [hfe] at hc; simp at hc
          | some ex =>
            rw [hfe] at hc
            have hmem := find_by_email_eq_some (hfe : find_by_email db.employees em = some ex)
            exact ⟨ex, hmem.1, hmem.2, by simpa using hc⟩
        · have hcf : SqliteDB.email_conflict db eid u = false := by
            revert hc; cases SqliteDB.email_conflict db eid u <;> simp
          unfold SqliteDB.update_employee at hres
          rw [hr₀] at hres
          simp only [Option.isNone_some, Bool.false_eq_true, if_false, hcf] at hres
          cases hm : (SqliteDB.employee_written db eid u).get_by_id eid with
          | some row => rw [hm] at hres; exact absurd hres (by simp)
          | none => rw [hm] at hres; exact absurd hres (by simp)
      · rintro ⟨r, hrmem, hrem, hrid⟩
        have hfeS : (db.get_by_email em).isSome = true :=
          find_by_email_isSome.mpr ⟨r, hrmem, hrem⟩
        obtain ⟨ex, hfe⟩ := Option.isSome_iff_exists.mp hfeS
        have hmem := find_by_email_eq_some (hfe : find_by_email db.employees em = some ex)
        have hexid : ex.id ≠ eid := by
          intro hexid
          have hxr : ex = r :=
            List.inj_on_of_nodup_map hnodup hmem.1 hrmem (by rw [hmem.2, hrem])
          exact hrid (hxr ▸ hexid)
        have hc : SqliteDB.email_conflict db eid u = true := by
          unfold SqliteDB.email_conflict
          rw [hem]
          dsimp only
          rw [show db.get_by_email em = some ex from hfe]
          simpa using hexid
        simp [SqliteDB.update_employee, hr₀, hc]
  · intro db eid u
    constructor
    · intro hid
      have h1 : find_by_id db.employees eid = none := find_by_id_eq_none hid
      simp [MongoState.update_employee, MongoState.get_by_id, h1]
    · intro em hem hnodup hex
      have hidSome : (db.get_by_id eid).isSome = true :=
        find_by_id_isSome.mpr hex
      obtain ⟨r₀, hr₀⟩ := Option.isSome_iff_exists.mp hidSome
      constructor
      · intro hres
        by_cases hc : MongoState.email_conflict db eid u = true
        · unfold MongoState.email_conflict at hc
          rw [hem] at hc
          dsimp only at hc
          cases hfe : db.get_by_email em with
          | none => rw [hfe] at hc; simp at hc
          | some ex =>
            rw [hfe] at hc
            have hmem := find_by_email_eq_some (hfe : find_by_email db.employees em = some ex)
            exact ⟨ex, hmem.1, hmem.2, by simpa using hc⟩
        · have hcf : MongoState.email_conflict db eid u = false := by
            revert hc; cases MongoState.email_conflict db eid u <;> simp
          unfold MongoState.update_employee at hres
          rw [hr₀] at hres
          simp only [Option.isNone_some, Bool.false_eq_true, if_false, hcf] at hres
          cases hm : (MongoState.employee_written db eid u).get_by_id eid with
          | some row => rw [hm] at hres; exact absurd hres (by simp)
          | none => rw [hm] at hres; exact absurd hres (by simp)
      · rintro ⟨r, hrmem, hrem, hrid⟩
        have hfeS : (db.get_by_email em).isSome = true :=
          find_by_email_isSome.mpr ⟨r, hrmem, hrem⟩
        obtain ⟨ex, hfe⟩ := Option.isSome_iff_exists.mp hfeS
        have hmem := find_by_email_eq_some (hfe : find_by_email db.employees em = some ex)
        have hexid : ex.id ≠ eid := by
          intro hexid
          have hxr : ex = r :=
            List.inj_on_of_nodup_map hnodup hmem.1 hrmem (by rw [hmem.2, hrem])
          exact hrid (hxr ▸ hexid)
        have hc : MongoState.email_conflict db eid u = true := by
          unfold MongoState.email_conflict
          rw [hem]
          dsimp only
          rw [show db.get_by_email em = some ex from hfe]
          simpa using hexid
        simp [MongoState.update_employee, hr₀, hc]

/-- Claim C7 witness: in `c7_db` (employees `E001`/`a@x.com` and
`E002`/`b@x.com`), updating `E001`'s email to `b@x.com` — owned by the
different employee `E002` — fails with Duplicate. -/
theorem C7_update_email_uniqueness_witness :
    c7_db.update_employee "E001" ⟨none, some "b@x.com", none⟩ =
      .error (.Duplicate "Employee" "email") :=
  ((C7_update_email_uniqueness.1 c7_db "E001" ⟨none, some "b@x.com", none⟩).2
      "b@x.com" rfl (by decide)
      ⟨⟨"E001", "Alice Smith", "a@x.com", "Engineering", 10⟩, by decide, rfl⟩).mpr
    ⟨⟨"E002", "Bob Jones", "b@x.com", "Sales", 11⟩, by decide, rfl, by decide⟩

/-! ## Claim C8 -/

/-- Claim C8: for every existing employee and every partial update, the
update changes only the supplied fields and leaves every unsupplied field
untouched (not nulled): the returned (stored) record keeps the old `id` and
`created_at`, and each of `name`/`email`/`department` equals the supplied
value when the field was supplied and the old value when it was not
(`Option.getD`); the attendance store and every other employee row are
untouched. Stated for updates whose supplied email is not owned by a
different employee (otherwise the update fails with Duplicate, claim C7).
Both backends. -/
theorem C8_partial_update_frame :
    (∀ (db : SqliteDB) (eid : String) (u : EmployeeUpdateData),
      (∃ r ∈ db.employees, r.id = eid) →
      (∀ em, u.email = some em → ∀ r ∈ db.employees, r.email = em → r.id = eid) →
      ∃ r₀ db' row,
        db.get_by_id eid = some r₀ ∧
        db.update_employee eid u = .ok (db', row) ∧
        row.id = r₀.id ∧
        row.created_at = r₀.created_at ∧
        row.name = u.name.getD r₀.name ∧
        row.email = u.email.getD r₀.email ∧
        row.department = u.department.getD r₀.department ∧
        db'.attendance = db.attendance ∧
        db'.next_attendance_id = db.next_attendance_id ∧
        db'.employees.length = db.employees.length ∧
        (∀ r ∈ db.employees, r.id ≠ eid → r ∈ db'.employees))
    ∧ (∀ (db : MongoState) (eid : String) (u : EmployeeUpdateData),
      (∃ r ∈ db.employees, r.id = eid) →
      (∀ em, u.email = some em → ∀ r ∈ db.employees, r.email = em → r.id = eid) →
      ∃ r₀ db' row,
        db.get_by_id eid = some r₀ ∧
        db.update_employee eid u = .ok (db', row) ∧
        row.id = r₀.id ∧
        row.created_at = r₀.created_at ∧
        row.name = u.name.getD r₀.name ∧
        row.email = u.email.getD r₀.email ∧
        row.department = u.department.getD r₀.department ∧
        db'.attendance = db.attendance ∧
        db'.next_oid = db.next_oid ∧
        db'.employees.length = db.employees.length ∧
        (∀ r ∈ db.employees, r.id ≠ eid → r ∈ db'.employees)) := by
  constructor
  · intro db eid u hex hmail
    obtain ⟨r₀, hr₀⟩ := Option.isSome_iff_exists.mp
      (show (db.get_by_id eid).isSome = true from find_by_id_isSome.mpr hex)
    have hcf : SqliteDB.email_conflict db eid u = false := by
      unfold SqliteDB.email_conflict
      cases hue : u.email with
      | none => rfl
      | some em =>
        dsimp only
        cases hfe : db.get_by_email em with
        | none => rfl
        | some ex =>
          have hmem := find_by_email_eq_some (hfe : find_by_email db.employees em = some ex)
          have hexid : ex.id = eid := hmail em hue ex hmem.1 hmem.2
          simp [hexid]
    have hre : (SqliteDB.employee_written db eid u).get_by_id eid
        = some (SqliteDB.apply_employee_update u r₀) := by
      cases hu : SqliteDB.update_has_fields u with
      | true =>
        unfold SqliteDB.employee_written
        rw [if_pos hu]
        show find_by_id (db.employees.map
          (fun r => if r.id == eid then SqliteDB.apply_employee_update u r else r)) eid = _
        rw [find_by_id_map_update db.employees eid
          (SqliteDB.apply_employee_update u) (fun r => rfl)]
        rw [show find_by_id db.employees eid = some r₀ from hr₀]
        rfl
      | false =>
        have hu0 : u = ⟨none, none, none⟩ := update_has_fields_false hu
        subst hu0
        exact hr₀
    refine ⟨r₀, SqliteDB.employee_written db eid u, SqliteDB.apply_employee_update u r₀,
      hr₀, ?_, rfl, rfl, rfl, rfl, rfl, SqliteDB.employee_written_att db eid u, ?_, ?_, ?_⟩
    · simp only [SqliteDB.update_employee, hr₀, Option.isNone_some, Bool.false_eq_true,
        if_false]
      rw [if_neg (by simp [hcf]), hre]
    · unfold SqliteDB.employee_written
      split <;> rfl
    · unfold SqliteDB.employee_written
      split
      · simp
      · rfl
    · intro r hmem hrne
      unfold SqliteDB.employee_written
      split
      · refine List.mem_map.mpr ⟨r, hmem, ?_⟩
        rw [if_neg (by simp [hrne])]
      · exact hmem
  · intro db eid u hex hmail
    obtain ⟨r₀, hr₀⟩ := Option.isSome_iff_exists.mp
      (show (db.get_by_id eid).isSome = true from find_by_id_isSome.mpr hex)
    have hcf : MongoState.email_conflict db eid u = false := by
      unfold MongoState.email_conflict
      cases hue : u.email with
      | none => rfl
      | some em =>
        dsimp only
        cases hfe : db.get_by_email em with
        | none => rfl
        | some ex =>
          have hmem := find_by_email_eq_some (hfe : find_by_email db.employees em = some ex)
          have hexid : ex.id = eid := hmail em hue ex hmem.1 hmem.2
          simp [hexid]
    have hre : (MongoState.employee_written db eid u).get_by_id eid
        = some (SqliteDB.apply_employee_update u r₀) := by
      cases hu : SqliteDB.update_has_fields u with
      | true =>
        unfold MongoState.employee_written
        rw [if_pos hu]
        show find_by_id (update_first (fun r => r.id == eid)
          (SqliteDB.apply_employee_update u) db.employees) eid = _
        rw [find_by_id_update_first db.employees eid
          (SqliteDB.apply_employee_update u) (fun r => rfl)]
        rw [show find_by_id db.employees eid = some r₀ from hr₀]
        rfl
      | false =>
        have hu0 : u = ⟨none, none, none⟩ := update_has_fields_false hu
        subst hu0
        exact hr₀
    refine ⟨r₀, MongoState.employee_written db eid u, SqliteDB.apply_employee_update u r₀,
      hr₀, ?_, rfl, rfl, rfl, rfl, rfl, MongoState.employee_written_att_m db eid u, ?_, ?_, ?_⟩
    · simp only [MongoState.update_employee, hr₀, Option.isNone_some, Bool.false_eq_true,
        if_false]
      rw [if_neg (by simp [hcf]), hre]
    · unfold MongoState.employee_written
      split <;> rfl
    · unfold MongoState.employee_written
      split
      · exact update_first_length db.employees
      · rfl
    · intro r hmem hrne
      unfold MongoState.employee_written
      split
      · exact mem_update_first_of_neg hmem (beq_eq_false_iff_ne.mpr hrne)
      · exact hmem

/-- Claim C8 witness: in `c8_db` (one employee `E001`), a department-only
partial update succeeds and the returned record keeps the old name, email and
`created_at` while the department becomes `"HR"`. -/
theorem C8_partial_update_frame_witness :
    ∃ r₀ db' row,
      c8_db.get_by_id "E001" = some r₀ ∧
      c8_db.update_employee "E001" ⟨none, none, some "HR"⟩ = .ok (db', row) ∧
      row.name = r₀.name ∧ row.email = r₀.email ∧ row.created_at = r₀.created_at ∧
      row.department = "HR" := by
  obtain ⟨r₀, db', row, h1, h2, _, h4, h5, h6, h7, -, -, -, -⟩ :=
    C8_partial_update_frame.1 c8_db "E001" ⟨none, none, some "HR"⟩
      ⟨⟨"E001", "Alice Smith", "a@x.com", "Engineering", 10⟩, by decide, rfl⟩
      (by intro em hem; exact absurd hem (by simp))
  exact ⟨r₀, db', row, h1, h2, h5, h6, h4, h7⟩

/-! ## Claim C9 -/

/-- Claim C9: the per-employee summary fails with NotFound when the employee
is absent, and otherwise returns exactly the number of that employee's stored
attendance records with status Present and with status Absent, with the name
taken from the employee record. Both backends. -/
theorem C9_summary_counts :
    (∀ (db : SqliteDB) (eid : String),
      ((¬∃ r ∈ db.employees, r.id = eid) →
        db.get_employee_attendance_summary eid = .error (.NotFound "Employee" eid))
      ∧ (∀ r₀, db.get_by_id eid = some r₀ →
          db.get_employee_attendance_summary eid =
            .ok ⟨eid, r₀.name,
              db.attendance.countP (fun r => decide (r.employee_id = eid ∧ r.status = "Present")),
              db.attendance.countP (fun r => decide (r.employee_id = eid ∧ r.status = "Absent"))⟩))
    ∧ (∀ (db : MongoState) (eid : String),
      ((¬∃ r ∈ db.employees, r.id = eid) →
        db.get_employee_attendance_summary eid = .error (.NotFound "Employee" eid))
      ∧ (∀ r₀, db.get_by_id eid = some r₀ →
          db.get_employee_attendance_summary eid =
            .ok ⟨eid, r₀.name,
              db.attendance.countP (fun r => decide (r.employee_id = eid ∧ r.status = "Present")),
              db.attendance.countP (fun r => decide (r.employee_id = eid ∧ r.status = "Absent"))⟩)) := by
  have hp : ∀ (st : String) (eid : String),
      (fun r : AttendanceRow => r.employee_id == eid && r.status == st) =
        (fun r : AttendanceRow => decide (r.employee_id = eid ∧ r.status = st)) := by
    intro st eid; funext r; simp [beq_decide]
  have hpm : ∀ (st : String) (eid : String),
      (fun r : MongoAttendanceRow => r.employee_id == eid && r.status == st) =
        (fun r : MongoAttendanceRow => decide (r.employee_id = eid ∧ r.status = st)) := by
    intro st eid; funext r; simp [beq_decide]
  constructor
  · intro db eid
    constructor
    · intro hid
      have h1 : find_by_id db.employees eid = none := find_by_id_eq_none hid
      simp [SqliteDB.get_employee_attendance_summary, SqliteDB.get_by_id, h1]
    · intro r₀ hr₀
      simp only [SqliteDB.get_employee_attendance_summary, hr₀]
      rw [List.countP_eq_length_filter, List.countP_eq_length_filter, ← hp, ← hp]
  · intro db eid
    constructor
    · intro hid
      have h1 : find_by_id db.employees eid = none := find_by_id_eq_none hid
      simp [MongoState.get_employee_attendance_summary, MongoState.get_by_id, h1]
    · intro r₀ hr₀
      simp only [MongoState.get_employee_attendance_summary, hr₀]
      rw [List.countP_eq_length_filter, List.countP_eq_length_filter, ← hpm, ← hpm]

/-- Claim C9 witness: in `c9_db` — employee `E001` with three Present and two
Absent records created through the service — the summary returns
total_present = 3 and total_absent = 2, with the employee's name. -/
theorem C9_summary_counts_witness :
    c9_db.get_employee_attendance_summary "E001" =
      .ok ⟨"E001", "Alice Smith", 3, 2⟩ := by
  have h := (C9_summary_counts.1 c9_db "E001").2
    ⟨"E001", "Alice Smith", "a@x.com", "Engineering", 10⟩ (by rfl)
  rw [h]
  rfl

/-! ## Claim C10 -/

/-- Claim C10: an update supplying no fields at all still succeeds on an
existing employee: the store is left completely unchanged (no `UPDATE` /
`update_one` is issued) and the employee's current record is returned.
Both backends. -/
theorem C10_empty_update_noop :
    (∀ (db : SqliteDB) (eid : String),
      (∃ r ∈ db.employees, r.id = eid) →
      ∃ r₀, db.get_by_id eid = some r₀ ∧
        db.update_employee eid ⟨none, none, none⟩ = .ok (db, r₀))
    ∧ (∀ (db : MongoState) (eid : String),
      (∃ r ∈ db.employees, r.id = eid) →
      ∃ r₀, db.get_by_id eid = some r₀ ∧
        db.update_employee eid ⟨none, none, none⟩ = .ok (db, r₀)) := by
  constructor
  · intro db eid hex
    obtain ⟨r₀, hr₀⟩ := Option.isSome_iff_exists.mp
      (show (db.get_by_id eid).isSome = true from find_by_id_isSome.mpr hex)
    refine ⟨r₀, hr₀, ?_⟩
    have hre : (SqliteDB.employee_written db eid ⟨none, none, none⟩).get_by_id eid
        = some r₀ := hr₀
    simp only [SqliteDB.update_employee, hr₀, Option.isNone_some, Bool.false_eq_true,
      if_false, hre]
    rw [if_neg (by simp [SqliteDB.email_conflict])]
    rfl
  · intro db eid hex
    obtain ⟨r₀, hr₀⟩ := Option.isSome_iff_exists.mp
      (show (db.get_by_id eid).isSome = true from find_by_id_isSome.mpr hex)
    refine ⟨r₀, hr₀, ?_⟩
    have hre : (MongoState.employee_written db eid ⟨none, none, none⟩).get_by_id eid
        = some r₀ := hr₀
    simp only [MongoState.update_employee, hr₀, Option.isNone_some, Bool.false_eq_true,
      if_false, hre]
    rw [if_neg (by simp [MongoState.email_conflict])]
    rfl

/-- Claim C10 witness: in `c8_db` (one employee `E001`), the empty partial
update returns the stored record and leaves the store unchanged. -/
theorem C10_empty_update_noop_witness :
    c8_db.update_employee "E001" ⟨none, none, none⟩ =
      .ok (c8_db, ⟨"E001", "Alice Smith", "a@x.com", "Engineering", 10⟩) := by
  obtain ⟨r₀, hr₀, hres⟩ := C10_empty_update_noop.1 c8_db "E001"
    ⟨⟨"E001", "Alice Smith", "a@x.com", "Engineering", 10⟩, by decide, rfl⟩
  have hr : r₀ = ⟨"E001", "Alice Smith", "a@x.com", "Engineering", 10⟩ := by
    have : some r₀ = some (⟨"E001", "Alice Smith", "a@x.com", "Engineering", 10⟩ :
        EmployeeRow) := by rw [← hr₀]; rfl
    exact Option.some.inj this
  rw [hres, hr]

end HRMS
